import Mathlib

/-!
Verification development for a PDF outline extractor.

The program under study reads a PDF, learns the "body text" style from a
frequency table of (rounded font size, boldness) pairs, picks up to three
larger/bolder styles as heading levels H1..H3, extracts a title from the
first page, and assembles a page-scoped outline.  We embed the pure
decision logic shallowly: a document is a list of pages, each page a list
of blocks, each block an optional list of lines, each line a list of
spans carrying text, a rounded integer font size and a font name.  Font
sizes are modelled already rounded to integers, since the program rounds
every size before any comparison or lookup.
-/

namespace PdfOutline

/-- A text span: one run of text with a (rounded) font size and font name. -/
structure Span where
  text : String
  size : Int
  font : String
deriving DecidableEq, Repr

/-- A line is a sequence of spans. -/
structure Line where
  spans : List Span
deriving DecidableEq, Repr

/-- A block optionally carries lines (image blocks carry none, mirroring
the presence test of the "lines" key in the extractor's dictionary). -/
structure Block where
  lines : Option (List Line)
deriving DecidableEq, Repr

/-- A page: its dict-mode blocks, plus the raw text blocks used only by
the degenerate-layout fallback of the first-page analyzer. -/
structure Page where
  blocks : List Block
  rawBlocks : List String
deriving DecidableEq, Repr

/-- A document is a list of pages. -/
abbrev Doc := List Page

/-- One outline entry: heading level, text, 1-based page number. -/
structure OutlineEntry where
  level : String
  text : String
  page : Nat
deriving DecidableEq, Repr

/-- The per-document result: title plus ordered outline. -/
structure Result where
  title : String
  outline : List OutlineEntry
deriving DecidableEq, Repr

/-- A style is a (rounded size, bold) pair. -/
abbrev Style := Int × Bool

/-- Whitespace test used by the Python `strip` and `split` models. -/
def wsChar (c : Char) : Bool := c.isWhitespace

/-- Left-and-right whitespace strip on character lists. -/
def pyStripData (l : List Char) : List Char :=
  ((l.dropWhile wsChar).reverse.dropWhile wsChar).reverse

/-- Model of Python `str.strip()`. -/
def pyStrip (s : String) : String := ⟨pyStripData s.data⟩

/-- Helper of `pySplit`: walk the characters, accumulating the current
word reversed, emitting it at whitespace and at the end. -/
def pySplitAux : List Char → List Char → List String
  | [], acc => if acc = [] then [] else [⟨acc.reverse⟩]
  | c :: cs, acc =>
    if wsChar c then
      if acc = [] then pySplitAux cs [] else ⟨acc.reverse⟩ :: pySplitAux cs []
    else pySplitAux cs (c :: acc)

/-- Model of Python `str.split()` with no arguments: split on whitespace
runs, discarding empty pieces. -/
def pySplit (s : String) : List String := pySplitAux s.data []

/-- Model of Python `str.lower()`, characterwise. -/
def lowerStr (s : String) : String := ⟨s.data.map Char.toLower⟩

/-- Does `needle` occur as a prefix of `hay`? -/
def startsWithChars : List Char → List Char → Bool
  | [], _ => true
  | _ :: _, [] => false
  | a :: as, b :: bs => a == b && startsWithChars as bs

/-- Does `needle` occur as a contiguous substring of `hay`?  Models the
Python `in` test on strings. -/
def hasSubstring (needle : List Char) : List Char → Bool
  | [] => startsWithChars needle []
  | b :: bs => startsWithChars needle (b :: bs) || hasSubstring needle bs

/-- Model of Python `str.endswith(suffix)`. -/
def endsWithStr (s suffix : String) : Bool :=
  startsWithChars suffix.data.reverse s.data.reverse

/-- The boldness test: `"bold" in span["font"].lower()`. -/
def isBoldFont (font : String) : Bool :=
  hasSubstring "bold".data (lowerStr font).data

/-- The style of a span: `(round(span["size"]), "bold" in span["font"].lower())`. -/
def styleOf (s : Span) : Style := (s.size, isBoldFont s.font)

/-- The lines of a block, empty when the block carries no "lines" key. -/
def blockLinesForStyles (b : Block) : List Line :=
  match b.lines with
  | some ls => ls
  | none => []

/-- Joined text of a line's spans, stripped: `" ".join(s["text"] for s in spans).strip()`. -/
def lineText (l : Line) : String :=
  pyStrip (String.intercalate " " (l.spans.map Span.text))

/-- The style of a line's first span, absent when the line has no spans. -/
def firstSpanStyle (l : Line) : Option Style :=
  match l.spans with
  | [] => none
  | sp :: _ => some (styleOf sp)

/-- The style samples contributed by one page to the frequency pass:
the style of the first span of every span-bearing line. -/
def pageStyles (p : Page) : List Style :=
  (p.blocks.flatMap blockLinesForStyles).filterMap firstSpanStyle

/-- Add one occurrence of a style to an insertion-ordered counter. -/
def countAdd (c : List (Style × Nat)) (s : Style) : List (Style × Nat) :=
  if s ∈ c.map Prod.fst then
    c.map (fun p => if p.1 = s then (p.1, p.2 + 1) else p)
  else c ++ [(s, 1)]

/-- The style frequency table over pages `start..end`, in first-encounter
order (modelling `collections.Counter`, whose iteration order is
insertion order). -/
def countStyles (doc : Doc) (start : Nat) : List (Style × Nat) :=
  ((doc.drop start).flatMap pageStyles).foldl countAdd []

/-- Pick the entry with the strictly largest count, keeping the earlier
entry on ties (modelling `Counter.most_common(1)` with Python's stable
sort over insertion order). -/
def mostCommonAux (best : Style × Nat) : List (Style × Nat) → Style
  | [] => best.1
  | p :: rest => mostCommonAux (if best.2 < p.2 then p else best) rest

/-- `Counter.most_common(1)[0][0]`, or `none` on an empty table. -/
def mostCommon : List (Style × Nat) → Option Style
  | [] => none
  | p :: rest => some (mostCommonAux p rest)

/-- Insert a style into a list already sorted by strictly descending
size, placing it after every element of size at least its own.  Folding
this over a list realises Python's stable descending sort by size. -/
def insertDesc (x : Style) : List Style → List Style
  | [] => [x]
  | y :: ys => if y.1 < x.1 then x :: y :: ys else y :: insertDesc x ys

/-- Stable sort by strictly descending size, ties keeping first-seen order. -/
def sortBySizeDesc (l : List Style) : List Style :=
  l.foldl (fun acc x => insertDesc x acc) []

/-- The candidate heading styles of a frequency table, in table order:
strictly larger than the body size, or equal size but bold and distinct
from the body style. -/
def candidateStyles (counts : List (Style × Nat)) (body : Style) : List Style :=
  (counts.map Prod.fst).filter
    (fun s => decide (body.1 < s.1) || (decide (s.1 = body.1) && s.2 && decide (s ≠ body)))

/-- The name of the i-th heading level: `f"H{i+1}"`. -/
def levelName (i : Nat) : String := "H" ++ toString (i + 1)

/-- `get_style_hierarchy`: frequency table, body style, candidates sorted
by descending size, top three mapped to H1..H3.  Returns the empty map
and no body style on an empty table. -/
def get_style_hierarchy (doc : Doc) (start : Nat) : List (Style × String) × Option Style :=
  match mostCommon (countStyles doc start) with
  | none => ([], none)
  | some body =>
    (((sortBySizeDesc (candidateStyles (countStyles doc start) body)).take 3).enum.map
       (fun p => (p.2, levelName p.1)), some body)

/-- The first line of a block together with its first span, when the
block has lines, a first line, and that line has spans — the guard
`"lines" in block and block["lines"] and block["lines"][0]["spans"]`
shared by the first-page analyzer and the outline pass. -/
def firstLineInfo (b : Block) : Option (String × Span) :=
  match b.lines with
  | some (l :: _) =>
    match l.spans with
    | [] => none
    | sp :: _ => some (lineText l, sp)
  | _ => none

/-- The largest first-span size over a page's blocks, starting from 0. -/
def maxFirstSpanSize (blocks : List Block) : Int :=
  blocks.foldl
    (fun m b => match firstLineInfo b with
      | some (_, sp) => max m sp.size
      | none => m) 0

/-- The title-fragment texts: first-line texts whose first span has the
maximal size. -/
def titleLines (blocks : List Block) (maxSize : Int) : List String :=
  blocks.filterMap
    (fun b => match firstLineInfo b with
      | some (t, sp) => if sp.size = maxSize then some t else none
      | none => none)

/-- The ignore texts: first-line texts whose first span is below the
maximal size. -/
def ignoreTexts (blocks : List Block) (maxSize : Int) : List String :=
  blocks.filterMap
    (fun b => match firstLineInfo b with
      | some (t, sp) => if sp.size = maxSize then none else some t
      | none => none)

/-- `analyze_first_page`: title plus ignore list from page one. -/
def analyze_first_page (doc : Doc) : String × List String :=
  match doc with
  | [] => ("Title not found", [])
  | page0 :: _ =>
    if page0.blocks = [] then ("Title not found", [])
    else
      let maxSize := maxFirstSpanSize page0.blocks
      if maxSize = 0 then
        match page0.rawBlocks with
        | [] => ("Title not found", [])
        | rb :: _ => (⟨(pyStrip rb).data.takeWhile (fun c => c ≠ '\n')⟩, [])
      else
        let tls := titleLines page0.blocks maxSize
        (if tls = [] then "Title not found" else String.intercalate " " tls,
         ignoreTexts page0.blocks maxSize)

/-- The title fragments a document's first page contributes, mirroring
the collection pass of `analyze_first_page` (empty on the degenerate
paths where no fragments are collected). -/
def titleFragments (doc : Doc) : List String :=
  match doc with
  | [] => []
  | page0 :: _ =>
    if page0.blocks = [] then []
    else
      let maxSize := maxFirstSpanSize page0.blocks
      if maxSize = 0 then [] else titleLines page0.blocks maxSize

/-- Is the text entirely digits and dots (the regex branch `[\d\.]+`)? -/
def digitsDotsOnly (t : String) : Bool :=
  decide (t ≠ "") && t.data.all (fun c => c.isDigit || c == '.')

/-- The fixed form-label reject list of rule 4. -/
def formLabels : List String :=
  ["name", "age", "relationship", "date", "signature of government servant."]

/-- `is_valid_heading`: strip, then the four reject rules in order. -/
def is_valid_heading (text : String) : Bool :=
  let t := pyStrip text
  if t = "" then false
  else if digitsDotsOnly t || lowerStr t == "s.no" then false
  else if endsWithStr t "." && decide ((pySplit t).length > 4) then false
  else if lowerStr t ∈ formLabels then false
  else true

/-- Association lookup of a style in the heading level map. -/
def lookupStyle (m : List (Style × String)) (st : Style) : Option String :=
  match m with
  | [] => none
  | p :: rest => if p.1 = st then some p.2 else lookupStyle rest st

/-- The outline entry contributed by one block, if any: the program
inspects only the block's first line, skips empty/title/ignored text,
and emits when the first span's style is mapped and the text validates. -/
def entryForBlock (m : List (Style × String)) (title : String) (ignore : List String)
    (pageNum : Nat) (b : Block) : Option OutlineEntry :=
  match firstLineInfo b with
  | none => none
  | some (t, sp) =>
    if t = "" ∨ t = title ∨ t ∈ ignore then none
    else
      match lookupStyle m (styleOf sp) with
      | none => none
      | some lvl =>
        if is_valid_heading t && decide (lvl ≠ "") && decide (lvl ∈ ["H1", "H2", "H3"]) then
          some ⟨lvl, t, pageNum + 1⟩
        else none

/-- The outline pass: every page in order, every block, first line only. -/
def buildOutline (doc : Doc) (title : String) (ignore : List String)
    (m : List (Style × String)) : List OutlineEntry :=
  doc.enum.flatMap (fun pp => pp.2.blocks.filterMap (entryForBlock m title ignore pp.1))

/-- `process_pdf_document` on an already-opened document: title analysis,
style hierarchy from page 2 (page 1 for single-page documents), then the
outline pass, short-circuited to an empty outline when no heading styles
were learned. -/
def process_pdf_document (doc : Doc) : Result :=
  if (get_style_hierarchy doc (if doc.length > 1 then 1 else 0)).1 = [] then
    ⟨(analyze_first_page doc).1, []⟩
  else
    ⟨(analyze_first_page doc).1,
      buildOutline doc (analyze_first_page doc).1 (analyze_first_page doc).2
        (get_style_hierarchy doc (if doc.length > 1 then 1 else 0)).1⟩

/-- The document-level wrapper: an open failure degrades to the error
result, an opened document is processed normally. -/
def process_pdf_path (openRes : Option Doc) (filename : String) : Result :=
  match openRes with
  | none => ⟨"Error processing " ++ filename, []⟩
  | some doc => process_pdf_document doc

/-- Case-insensitive `.pdf` filename test. -/
def isPdfName (f : String) : Bool := endsWithStr (lowerStr f) ".pdf"

/-- Model of `os.path.splitext(f)[0]`: drop the final dot-extension. -/
def dropExt (f : String) : String :=
  if f.data.contains '.' then
    ⟨((f.data.reverse.dropWhile (fun c => decide (c ≠ '.'))).drop 1).reverse⟩
  else f

/-- `process_all_pdfs`: every `.pdf` file of the listing yields exactly
one output pair (JSON filename, result); the written dictionary is never
empty, so the write is unconditional. -/
def process_all_pdfs (opener : String → Option Doc) (files : List String) :
    List (String × Result) :=
  (files.filter isPdfName).map
    (fun f => (dropExt f ++ ".json", process_pdf_path (opener f) f))

/-! ### The heading validator as the specification words it

The claim states the four reject rules directly on the argument text,
with no mention of stripping.  These definitions follow that wording, to
be compared with `is_valid_heading` as translated from the source. -/

/-- Spec rule 1: the text is empty or whitespace-only. -/
def specRejectRule1 (t : String) : Bool := t.data.all wsChar

/-- Spec rule 2: the text fully matches, case-insensitively, a run of
digits and dots or the literal token "S.No". -/
def specRejectRule2 (t : String) : Bool := digitsDotsOnly t || lowerStr t == "s.no"

/-- Spec rule 3: the text ends in "." and its whitespace-split word
count exceeds 4. -/
def specRejectRule3 (t : String) : Bool :=
  endsWithStr t "." && decide ((pySplit t).length > 4)

/-- Spec rule 4: the text matches, case-insensitively and exactly, one
of the fixed form labels. -/
def specRejectRule4 (t : String) : Bool := decide (lowerStr t ∈ formLabels)

/-- The validator as the claim words it: reject exactly when one of the
four rules matches the given text. -/
def spec_is_valid_heading (t : String) : Bool :=
  !(specRejectRule1 t || specRejectRule2 t || specRejectRule3 t || specRejectRule4 t)

/-! ### Concrete example documents used by witnesses and counterexamples -/

/-- A span in a regular (non-bold) font. -/
def spn (t : String) (sz : Int) : Span := ⟨t, sz, "Helvetica"⟩

/-- A block holding a single one-span line. -/
def blk1 (s : Span) : Block := ⟨some [⟨[s]⟩]⟩

/-- A page with the given blocks and no raw text blocks. -/
def pageOf (bs : List Block) : Page := ⟨bs, []⟩

/-- A document whose page 2 hides a heading on the second line of a
block: the style pass sees it, the outline pass never visits it. -/
def docSecondLine : Doc :=
  [pageOf [blk1 (spn "Title" 20)],
   pageOf [blk1 (spn "body" 10), blk1 (spn "body" 10), blk1 (spn "body" 10),
           ⟨some [⟨[spn "filler" 10]⟩, ⟨[spn "Heading A" 16]⟩]⟩]]

/-- A document whose title is joined from two fragments, each of which
recurs as a heading-styled line. -/
def docTwoFragments : Doc :=
  [pageOf [blk1 (spn "Report" 20), blk1 (spn "Title" 20)],
   pageOf [blk1 (spn "body" 10), blk1 (spn "body" 10), blk1 (spn "body" 10),
           blk1 (spn "Chapter" 20)]]

/-- A single-page document carrying both title fragments and a dominant
smaller style, so its own page doubles as the style-learning page. -/
def docOnePage : Doc :=
  [pageOf [blk1 (spn "Report" 20), blk1 (spn "Title" 20),
           blk1 (spn "body one" 10), blk1 (spn "body two" 10),
           blk1 (spn "body three" 10)]]

/-- A document whose title is a single fragment. -/
def docSolo : Doc :=
  [pageOf [blk1 (spn "Solo Title" 20)],
   pageOf [blk1 (spn "body" 10), blk1 (spn "body" 10), blk1 (spn "body" 10),
           blk1 (spn "Chapter" 20)]]

/-- A two-page document whose second page has no text runs. -/
def docEmptyTail : Doc :=
  [pageOf [blk1 (spn "Report Title" 20)], pageOf []]

/-! ### Helper lemmas about stripping -/

theorem dropWhile_cons_false {α : Type} (p : α → Bool) (l : List α) (b : α) (bs : List α)
    (h : l.dropWhile p = b :: bs) : p b = false := by
  induction l with
  | nil => simp [List.dropWhile] at h
  | cons a as ih =>
    rw [List.dropWhile_cons] at h
    by_cases ha : p a
    · rw [if_pos ha] at h
      exact ih h
    · rw [if_neg ha] at h
      injection h with h1 _
      subst h1
      simpa using ha

theorem getLast?_dropWhile {α : Type} (p : α → Bool) (l : List α) (a : α)
    (h : l.getLast? = some a) (hpa : p a = false) :
    (l.dropWhile p).getLast? = some a := by
  induction l with
  | nil => simp at h
  | cons x xs ih =>
    rw [List.dropWhile_cons]
    by_cases hx : p x
    · rw [if_pos hx]
      cases xs with
      | nil =>
        simp only [List.getLast?_singleton, Option.some.injEq] at h
        subst h
        rw [hx] at hpa
        cases hpa
      | cons y ys =>
        rw [List.getLast?_cons_cons] at h
        exact ih h
    · rw [if_neg hx]
      exact h

theorem dropWhile_eq_self_of_head {α : Type} (p : α → Bool) (l : List α)
    (h : ∀ a, l.head? = some a → p a = false) : l.dropWhile p = l := by
  cases l with
  | nil => rfl
  | cons x xs =>
    have hx := h x (by rfl)
    simp [List.dropWhile_cons, hx]

theorem pyStripData_head (l : List Char) (b : Char) (bs : List Char)
    (h : pyStripData l = b :: bs) : wsChar b = false := by
  unfold pyStripData at h
  cases hA : l.dropWhile wsChar with
  | nil => rw [hA] at h; simp at h
  | cons a as =>
    have haw : wsChar a = false := dropWhile_cons_false wsChar l a as hA
    rw [hA] at h
    have hlast : ((a :: as).reverse.dropWhile wsChar).getLast? = some a := by
      apply getLast?_dropWhile wsChar _ a _ haw
      rw [List.getLast?_reverse]
      rfl
    have hb : ((a :: as).reverse.dropWhile wsChar).reverse.head? = some b := by
      rw [h]; rfl
    rw [List.head?_reverse, hlast] at hb
    injection hb with hb
    rw [← hb]
    exact haw

theorem pyStripData_getLast (l : List Char) (c : Char)
    (h : (pyStripData l).getLast? = some c) : wsChar c = false := by
  unfold pyStripData at h
  rw [List.getLast?_reverse] at h
  cases hB : (l.dropWhile wsChar).reverse.dropWhile wsChar with
  | nil => rw [hB] at h; cases h
  | cons b bs =>
    rw [hB] at h
    injection h with h
    rw [← show b = c from h]
    exact dropWhile_cons_false wsChar _ b bs hB

theorem pyStripData_idem (l : List Char) : pyStripData (pyStripData l) = pyStripData l := by
  cases hR : pyStripData l with
  | nil => rfl
  | cons b bs =>
    have hb : wsChar b = false := pyStripData_head l b bs hR
    have step1 : (b :: bs).dropWhile wsChar = b :: bs := by
      simp [List.dropWhile_cons, hb]
    have hne : (b :: bs) ≠ ([] : List Char) := by simp
    cases hL : (b :: bs).getLast? with
    | none => rw [List.getLast?_eq_none_iff] at hL; exact absurd hL hne
    | some c =>
      have hcw : wsChar c = false := pyStripData_getLast l c (by rw [hR]; exact hL)
      have step2 : (b :: bs).reverse.dropWhile wsChar = (b :: bs).reverse := by
        apply dropWhile_eq_self_of_head
        intro a ha
        rw [List.head?_reverse, hL] at ha
        injection ha with ha
        rw [← ha]
        exact hcw
      show pyStripData (b :: bs) = b :: bs
      unfold pyStripData
      rw [step1, step2, List.reverse_reverse]

theorem pyStrip_idem (s : String) : pyStrip (pyStrip s) = pyStrip s :=
  congrArg String.mk (pyStripData_idem s.data)

/-! ### Helper lemmas about the style hierarchy -/

theorem length_insertDesc (x : Style) (l : List Style) :
    (insertDesc x l).length = l.length + 1 := by
  induction l with
  | nil => rfl
  | cons y ys ih =>
    rw [insertDesc]
    by_cases hy : y.1 < x.1
    · rw [if_pos hy]; rfl
    · rw [if_neg hy]
      simp [ih]

theorem length_foldl_insertDesc (l : List Style) :
    ∀ acc : List Style,
      (l.foldl (fun acc x => insertDesc x acc) acc).length = acc.length + l.length := by
  induction l with
  | nil => intro acc; rfl
  | cons x xs ih =>
    intro acc
    rw [List.foldl_cons, ih (insertDesc x acc), length_insertDesc, List.length_cons]
    omega

theorem length_sortBySizeDesc (l : List Style) : (sortBySizeDesc l).length = l.length := by
  rw [sortBySizeDesc, length_foldl_insertDesc]
  simp

theorem lookupStyle_mem (m : List (Style × String)) (st : Style) (lvl : String)
    (h : lookupStyle m st = some lvl) : ∃ s, (s, lvl) ∈ m := by
  induction m with
  | nil => simp [lookupStyle] at h
  | cons p rest ih =>
    rw [lookupStyle] at h
    by_cases hp : p.1 = st
    · rw [if_pos hp] at h
      injection h with h
      exact ⟨p.1, by rw [← h]; exact List.mem_cons_self _ _⟩
    · rw [if_neg hp] at h
      obtain ⟨s, hs⟩ := ih h
      exact ⟨s, List.mem_cons_of_mem _ hs⟩

theorem hierarchy_snd_mem (doc : Doc) (start : Nat) (pr : Style × String)
    (h : pr ∈ (get_style_hierarchy doc start).1) :
    pr.2 = "H1" ∨ pr.2 = "H2" ∨ pr.2 = "H3" := by
  unfold get_style_hierarchy at h
  cases hm : mostCommon (countStyles doc start) with
  | none => rw [hm] at h; simp at h
  | some body =>
    rw [hm] at h
    dsimp only at h
    simp only [List.mem_map] at h
    obtain ⟨⟨i, st⟩, hq, hq2⟩ := h
    have hlt : i < ((sortBySizeDesc (candidateStyles (countStyles doc start) body)).take 3).length := by
      have := List.mem_enum_iff_getElem?.1 hq
      exact (List.getElem?_eq_some.1 this).1
    have h3 : i < 3 := by
      have := List.length_take_le 3 (sortBySizeDesc (candidateStyles (countStyles doc start) body))
      omega
    have hsnd : pr.2 = levelName i := by rw [← hq2]
    rw [hsnd]
    interval_cases i
    · left; rfl
    · right; left; rfl
    · right; right; rfl

/-! ### Helper lemmas about the outline pass -/

theorem entryForBlock_some (m : List (Style × String)) (title : String)
    (ignore : List String) (pageNum : Nat) (b : Block) (e : OutlineEntry)
    (h : entryForBlock m title ignore pageNum b = some e) :
    e.text ≠ title ∧ (e.level = "H1" ∨ e.level = "H2" ∨ e.level = "H3") := by
  unfold entryForBlock at h
  cases hfl : firstLineInfo b with
  | none => rw [hfl] at h; cases h
  | some pr =>
    obtain ⟨t, sp⟩ := pr
    rw [hfl] at h
    dsimp only at h
    by_cases hc : t = "" ∨ t = title ∨ t ∈ ignore
    · rw [if_pos hc] at h; cases h
    · rw [if_neg hc] at h
      cases hls : lookupStyle m (styleOf sp) with
      | none => rw [hls] at h; cases h
      | some lvl =>
        rw [hls] at h
        dsimp only at h
        by_cases hg : (is_valid_heading t && decide (lvl ≠ "")
            && decide (lvl ∈ ["H1", "H2", "H3"])) = true
        · rw [if_pos hg] at h
          injection h with h
          subst h
          refine ⟨fun ht => hc (Or.inr (Or.inl ht)), ?_⟩
          simp only [Bool.and_eq_true, decide_eq_true_eq] at hg
          simpa using hg.2
        · rw [if_neg hg] at h; cases h

theorem of_mem_buildOutline (doc : Doc) (title : String) (ignore : List String)
    (m : List (Style × String)) (e : OutlineEntry)
    (h : e ∈ buildOutline doc title ignore m) :
    ∃ pn b, entryForBlock m title ignore pn b = some e := by
  unfold buildOutline at h
  rw [List.mem_flatMap] at h
  obtain ⟨pp, _, hmem⟩ := h
  rw [List.mem_filterMap] at hmem
  obtain ⟨b, _, hb⟩ := hmem
  exact ⟨pp.1, b, hb⟩

theorem mem_buildOutline_intro (doc : Doc) (title : String) (ignore : List String)
    (m : List (Style × String)) (e : OutlineEntry) (pn : Nat) (page : Page) (b : Block)
    (hpage : doc[pn]? = some page) (hb : b ∈ page.blocks)
    (he : entryForBlock m title ignore pn b = some e) :
    e ∈ buildOutline doc title ignore m := by
  unfold buildOutline
  rw [List.mem_flatMap]
  refine ⟨(pn, page), ?_, ?_⟩
  · exact List.mem_enum_iff_getElem?.2 hpage
  · rw [List.mem_filterMap]
    exact ⟨b, hb, he⟩

theorem outline_entry_props (doc : Doc) (e : OutlineEntry)
    (h : e ∈ (process_pdf_document doc).outline) :
    e.text ≠ (process_pdf_document doc).title
      ∧ (e.level = "H1" ∨ e.level = "H2" ∨ e.level = "H3") := by
  unfold process_pdf_document at h ⊢
  by_cases hm : (get_style_hierarchy doc (if doc.length > 1 then 1 else 0)).1 = []
  · rw [if_pos hm] at h
    simp at h
  · rw [if_neg hm] at h ⊢
    dsimp only at h ⊢
    obtain ⟨pn, b, hb⟩ := of_mem_buildOutline _ _ _ _ _ h
    exact entryForBlock_some _ _ _ _ _ _ hb

/-! ### Claim theorems -/

/-- C7: for every document, no outline entry's text equals the result's
title string — the outline pass explicitly skips any first line whose
joined text equals the title. -/
theorem title_exclusivity (doc : Doc) (e : OutlineEntry)
    (h : e ∈ (process_pdf_document doc).outline) :
    e.text ≠ (process_pdf_document doc).title :=
  (outline_entry_props doc e h).1

/-- C7 witness: the entry ("H1", "Report", 1) of the two-fragment
document has text different from its title. -/
theorem title_exclusivity_witness :
    (⟨"H1", "Report", 1⟩ : OutlineEntry).text ≠ (process_pdf_document docTwoFragments).title :=
  title_exclusivity docTwoFragments ⟨"H1", "Report", 1⟩ (by decide)

/-- C8: the document-processing function is deterministic — two runs on
equal extracted run data return equal results. -/
theorem processing_deterministic (d d' : Doc) (h : d = d') :
    process_pdf_document d = process_pdf_document d' := by
  rw [h]

/-- C8 witness: determinism instantiated at a concrete document. -/
theorem processing_deterministic_witness :
    process_pdf_document docSolo = process_pdf_document docSolo :=
  processing_deterministic docSolo docSolo rfl

/-- C2 counterexample: in the two-fragment document, "Report" is a
title-fragment line of page 1, the assembled title is "Report Title",
and yet an outline entry with text "Report" is emitted — a line that
contributed to the title is later classified as a heading, because the
exclusion is an exact match against the joined title only. -/
theorem title_fragment_counterexample :
    "Report" ∈ titleFragments docTwoFragments
      ∧ (process_pdf_document docTwoFragments).title = "Report Title"
      ∧ ∃ e ∈ (process_pdf_document docTwoFragments).outline,
          e.text = "Report" ∧ e.level = "H1" := by
  decide

/-- C2 (amended): a title-fragment line whose text equals the assembled
title — always the case when the title was joined from a single
fragment — is never emitted as an outline entry; fragments of a
multi-fragment title enjoy no such guarantee. -/
theorem title_fragment_not_emitted (doc : Doc) (t : String)
    (hfrag : t ∈ titleFragments doc)
    (heq : t = (process_pdf_document doc).title) :
    ∀ e ∈ (process_pdf_document doc).outline, e.text ≠ t := by
  intro e he
  rw [heq]
  exact (outline_entry_props doc e he).1

/-- C2 witness: the single-fragment title "Solo Title" is a fragment
equal to the assembled title, and the concrete entry ("H1", "Chapter", 2)
of that document has a different text. -/
theorem title_fragment_not_emitted_witness :
    (⟨"H1", "Chapter", 2⟩ : OutlineEntry).text ≠ "Solo Title" :=
  title_fragment_not_emitted docSolo "Solo Title" (by decide) (by decide)
    ⟨"H1", "Chapter", 2⟩ (by decide)

/-- C10: the validator's verdict is invariant under stripping leading
and trailing whitespace, since the code strips its argument first and
stripping is idempotent. -/
theorem is_valid_heading_strip_invariant (text : String) :
    is_valid_heading text = is_valid_heading (pyStrip text) := by
  unfold is_valid_heading
  rw [pyStrip_idem]

/-- C1 counterexample: in `docSecondLine`, the second line of a page-2
block reads "Heading A", its first-span style (16, not bold) is mapped
to "H1", the text passes the validator, differs from the title and is
not ignored — yet no outline entry carries that text, because the
assembler only ever inspects the first line of each block. -/
theorem assembler_every_line_counterexample :
    lookupStyle (get_style_hierarchy docSecondLine 1).1 (16, false) = some "H1"
      ∧ docSecondLine.length > 1
      ∧ is_valid_heading "Heading A" = true
      ∧ (∃ pg ∈ docSecondLine, ∃ b ∈ pg.blocks, ∃ l ∈ blockLinesForStyles b,
          lineText l = "Heading A" ∧ firstSpanStyle l = some (16, false))
      ∧ "Heading A" ≠ (process_pdf_document docSecondLine).title
      ∧ "Heading A" ∉ (analyze_first_page docSecondLine).2
      ∧ ∀ e ∈ (process_pdf_document docSecondLine).outline, e.text ≠ "Heading A" := by
  decide

/-- C1 (amended): the Outline Assembler considers only the first line
(identified by its first span) of each block on each page, in document
order; whenever that first line's text is nonempty, differs from the
title, is not ignored, its style is a key of a nonempty heading level
map and the text passes the validator, the corresponding entry
{level, text, page+1} is emitted.  A qualifying heading line that is not
the first line of its block yields no outline entry. -/
theorem assembler_emits_first_line (doc : Doc) (pn : Nat) (page : Page) (b : Block)
    (t : String) (sp : Span) (lvl : String)
    (hpage : doc[pn]? = some page) (hb : b ∈ page.blocks)
    (hfl : firstLineInfo b = some (t, sp))
    (ht : t ≠ "") (htitle : t ≠ (analyze_first_page doc).1)
    (hig : t ∉ (analyze_first_page doc).2)
    (hlev : lookupStyle
        (get_style_hierarchy doc (if doc.length > 1 then 1 else 0)).1 (styleOf sp)
      = some lvl)
    (hval : is_valid_heading t = true) :
    (⟨lvl, t, pn + 1⟩ : OutlineEntry) ∈ (process_pdf_document doc).outline := by
  have hl3 : lvl = "H1" ∨ lvl = "H2" ∨ lvl = "H3" := by
    obtain ⟨s, hs⟩ := lookupStyle_mem _ _ _ hlev
    exact hierarchy_snd_mem doc _ (s, lvl) hs
  have hlne : lvl ≠ "" := by
    rcases hl3 with h | h | h <;> rw [h] <;> decide
  have hm : (get_style_hierarchy doc (if doc.length > 1 then 1 else 0)).1 ≠ [] := by
    intro hnil
    rw [hnil] at hlev
    cases hlev
  have hentry : entryForBlock
      (get_style_hierarchy doc (if doc.length > 1 then 1 else 0)).1
      (analyze_first_page doc).1 (analyze_first_page doc).2 pn b
      = some ⟨lvl, t, pn + 1⟩ := by
    unfold entryForBlock
    rw [hfl]
    dsimp only
    rw [if_neg (by push_neg; exact ⟨ht, htitle, hig⟩), hlev]
    dsimp only
    rw [if_pos]
    rw [hval, Bool.true_and, Bool.and_eq_true, decide_eq_true_eq, decide_eq_true_eq]
    exact ⟨hlne, by simpa using hl3⟩
  unfold process_pdf_document
  rw [if_neg hm]
  dsimp only
  exact mem_buildOutline_intro doc _ _ _ _ pn page b hpage hb hentry

/-- C1 witness: in `docSolo` the first line of the "Chapter" block on
page 2 satisfies every hypothesis, and the entry ("H1", "Chapter", 2)
is indeed in the outline. -/
theorem assembler_emits_first_line_witness :
    (⟨"H1", "Chapter", 2⟩ : OutlineEntry) ∈ (process_pdf_document docSolo).outline :=
  assembler_emits_first_line docSolo 1
    (pageOf [blk1 (spn "body" 10), blk1 (spn "body" 10), blk1 (spn "body" 10),
             blk1 (spn "Chapter" 20)])
    (blk1 (spn "Chapter" 20)) "Chapter" (spn "Chapter" 20) "H1"
    (by decide) (by decide) (by decide) (by decide) (by decide) (by decide)
    (by decide) (by decide)

/-- C3 counterexample: a single-page document — whose set of pages
beyond the first is empty, hence vacuously free of text runs — can
still produce a non-empty outline, because for single-page documents
the style learner scans page 1 itself. -/
theorem empty_body_counterexample :
    docOnePage.length = 1
      ∧ (∀ pg ∈ docOnePage.drop 1, ∀ b ∈ pg.blocks,
          ∀ l ∈ blockLinesForStyles b, l.spans = [])
      ∧ (process_pdf_document docOnePage).outline ≠ [] := by
  decide

/-- C3 (amended): for every document with at least two pages whose
pages beyond the first contain no text runs at all, the style table is
empty, so the outline is empty, while the title is still the one
extracted from page 1 by the first-page analyzer. -/
theorem empty_body_short_circuit (doc : Doc) (h2 : 1 < doc.length)
    (hruns : ∀ pg ∈ doc.drop 1, ∀ b ∈ pg.blocks,
      ∀ l ∈ blockLinesForStyles b, l.spans = []) :
    process_pdf_document doc = ⟨(analyze_first_page doc).1, []⟩ := by
  have hcount : countStyles doc 1 = [] := by
    unfold countStyles
    have hflat : (doc.drop 1).flatMap pageStyles = [] := by
      rw [List.flatMap_eq_nil_iff]
      intro pg hpg
      unfold pageStyles
      rw [List.filterMap_eq_nil_iff]
      intro l hl
      rw [List.mem_flatMap] at hl
      obtain ⟨b, hbmem, hlmem⟩ := hl
      have hsp := hruns pg hpg b hbmem l hlmem
      unfold firstSpanStyle
      rw [hsp]
    rw [hflat]
    rfl
  have hstart : (if doc.length > 1 then 1 else 0) = 1 := if_pos h2
  have hmap : get_style_hierarchy doc 1 = ([], none) := by
    unfold get_style_hierarchy
    rw [hcount]
    rfl
  unfold process_pdf_document
  rw [hstart, hmap]
  rfl

/-- C3 witness: the two-page document with an empty second page yields
an empty outline and the page-1 title "Report Title". -/
theorem empty_body_short_circuit_witness :
    process_pdf_document docEmptyTail = ⟨"Report Title", []⟩ := by
  rw [empty_body_short_circuit docEmptyTail (by decide) (by decide)]
  decide

theorem hierarchy_some_eq (doc : Doc) (start : Nat) (body : Style)
    (h : mostCommon (countStyles doc start) = some body) :
    (get_style_hierarchy doc start).1
      = ((sortBySizeDesc (candidateStyles (countStyles doc start) body)).take 3).enum.map
          (fun p => (p.2, levelName p.1)) := by
  unfold get_style_hierarchy
  rw [h]

theorem hierarchy_none_eq (doc : Doc) (start : Nat)
    (h : mostCommon (countStyles doc start) = none) :
    (get_style_hierarchy doc start).1 = [] := by
  unfold get_style_hierarchy
  rw [h]

theorem enumMap_fst (l : List Style) :
    (l.enum.map (fun p => (p.2, levelName p.1))).map Prod.fst = l := by
  rw [List.map_map]
  show l.enum.map Prod.snd = l
  rw [List.enum_eq_enumFrom, List.enumFrom_map_snd]

theorem enumMap_snd (l : List Style) :
    (l.enum.map (fun p => (p.2, levelName p.1))).map Prod.snd
      = (List.range l.length).map levelName := by
  rw [List.map_map]
  show l.enum.map (levelName ∘ Prod.fst) = _
  rw [← List.map_map, List.enum_eq_enumFrom, List.enumFrom_map_fst, ← List.range_eq_range']

theorem enumMap_length (l : List Style) :
    (l.enum.map (fun p => (p.2, levelName p.1))).length = l.length := by
  rw [List.length_map, List.enum_eq_enumFrom, List.enumFrom_length]

/-- C4: for a non-empty style table with most-common style `body`, the
heading map's keys are exactly the first three of the stable descending
sort of the candidate styles (larger than the body size, or equal size
but bold and distinct from the body), its values are H1..Hk assigned in
that order, it has at most 3 entries — and consequently every emitted
outline entry level is one of H1, H2, H3. -/
theorem heading_map_top3 (doc : Doc) (start : Nat) (body : Style)
    (h : mostCommon (countStyles doc start) = some body) :
    ((get_style_hierarchy doc start).1.map Prod.fst
        = (sortBySizeDesc (candidateStyles (countStyles doc start) body)).take 3)
      ∧ ((get_style_hierarchy doc start).1.map Prod.snd
        = (List.range (min 3 (candidateStyles (countStyles doc start) body).length)).map
            levelName)
      ∧ (get_style_hierarchy doc start).1.length ≤ 3
      ∧ ∀ d : Doc, ∀ e ∈ (process_pdf_document d).outline,
          e.level = "H1" ∨ e.level = "H2" ∨ e.level = "H3" := by
  rw [hierarchy_some_eq doc start body h]
  refine ⟨enumMap_fst _, ?_, ?_, ?_⟩
  · rw [enumMap_snd, List.length_take, length_sortBySizeDesc]
  · rw [enumMap_length, List.length_take]
    exact min_le_left _ _
  · intro d e he
    exact (outline_entry_props d e he).2

/-- C4 witness: instantiated on the two-fragment document, whose body
style is (10, not bold). -/
theorem heading_map_top3_witness :
    ((get_style_hierarchy docTwoFragments 1).1.map Prod.fst
        = (sortBySizeDesc (candidateStyles (countStyles docTwoFragments 1) (10, false))).take 3)
      ∧ (get_style_hierarchy docTwoFragments 1).1.length ≤ 3 :=
  ⟨(heading_map_top3 docTwoFragments 1 (10, false) (by decide)).1,
   (heading_map_top3 docTwoFragments 1 (10, false) (by decide)).2.2.1⟩

/-- C9: heading levels are assigned consecutively from H1 with no gaps
and no repeats: the map's values are exactly H1..Hk in order, they are
pairwise distinct, H3 present forces H1 and H2 present, and
k = min(3, number of candidate heading styles). -/
theorem heading_levels_consecutive (doc : Doc) (start : Nat) :
    ((get_style_hierarchy doc start).1.map Prod.snd
        = (List.range (get_style_hierarchy doc start).1.length).map levelName)
      ∧ ((get_style_hierarchy doc start).1.map Prod.snd).Nodup
      ∧ ("H3" ∈ (get_style_hierarchy doc start).1.map Prod.snd →
          "H1" ∈ (get_style_hierarchy doc start).1.map Prod.snd
            ∧ "H2" ∈ (get_style_hierarchy doc start).1.map Prod.snd)
      ∧ ∀ body, mostCommon (countStyles doc start) = some body →
          (get_style_hierarchy doc start).1.length
            = min 3 (candidateStyles (countStyles doc start) body).length := by
  have key : ∀ k : Nat, k ≤ 3 →
      (((List.range k).map levelName).Nodup
        ∧ ("H3" ∈ (List.range k).map levelName →
            "H1" ∈ (List.range k).map levelName ∧ "H2" ∈ (List.range k).map levelName)) := by
    intro k hk
    interval_cases k <;> exact ⟨by decide, by decide⟩
  cases hm : mostCommon (countStyles doc start) with
  | none =>
    rw [hierarchy_none_eq doc start hm]
    refine ⟨by simp, by simp, by simp, ?_⟩
    intro body hbody
    exact Option.noConfusion hbody
  | some body0 =>
    have hlen : (get_style_hierarchy doc start).1.length ≤ 3 := by
      rw [hierarchy_some_eq doc start body0 hm, enumMap_length, List.length_take]
      exact min_le_left _ _
    have hsnd : (get_style_hierarchy doc start).1.map Prod.snd
        = (List.range (get_style_hierarchy doc start).1.length).map levelName := by
      rw [hierarchy_some_eq doc start body0 hm, enumMap_snd, enumMap_length]
    refine ⟨hsnd, ?_, ?_, ?_⟩
    · rw [hsnd]
      exact (key _ hlen).1
    · rw [hsnd]
      exact (key _ hlen).2
    · intro body hbody
      injection hbody with hbody
      subst hbody
      rw [hierarchy_some_eq doc start body0 hm, enumMap_length, List.length_take,
        length_sortBySizeDesc]

/-- C9 witness: on the two-fragment document the map has exactly
min(3, 1) = 1 level, namely H1. -/
theorem heading_levels_consecutive_witness :
    (get_style_hierarchy docTwoFragments 1).1.length
      = min 3 (candidateStyles (countStyles docTwoFragments 1) (10, false)).length :=
  (heading_levels_consecutive docTwoFragments 1).2.2.2 (10, false) (by decide)

theorem stripped_not_ws (t : String) (h : pyStrip t ≠ "") :
    specRejectRule1 (pyStrip t) = false := by
  cases hd : pyStripData t.data with
  | nil => exact absurd (congrArg String.mk hd) h
  | cons b bs =>
    have hb : wsChar b = false := pyStripData_head t.data b bs hd
    show (pyStrip t).data.all wsChar = false
    have hdata : (pyStrip t).data = b :: bs := hd
    rw [hdata, List.all_cons, hb, Bool.false_and]

/-- C5 counterexample: on the text "name " (with a trailing blank), the
implementation rejects — it strips first and then matches the form
label "name" — while none of the four rules, read on the raw text as
the claim states them, matches. -/
theorem validator_rules_counterexample :
    is_valid_heading "name " = false ∧ spec_is_valid_heading "name " = true := by
  decide

/-- C5 (amended): `is_valid_heading text` returns false iff at least
one of the four reject rules matches the whitespace-stripped text
(rather than the raw text): the code strips its argument before
applying the rules. -/
theorem validator_rules_on_stripped (text : String) :
    is_valid_heading text = spec_is_valid_heading (pyStrip text) := by
  by_cases h1 : pyStrip text = ""
  · simp only [is_valid_heading, spec_is_valid_heading]
    rw [h1]
    decide
  · have hR1 := stripped_not_ws text h1
    simp only [is_valid_heading, spec_is_valid_heading]
    rw [if_neg h1, hR1, Bool.false_or]
    simp only [specRejectRule2, specRejectRule3, specRejectRule4]
    cases h2 : digitsDotsOnly (pyStrip text) || lowerStr (pyStrip text) == "s.no" <;>
      cases h3 : endsWithStr (pyStrip text) "."
          && decide ((pySplit (pyStrip text)).length > 4) <;>
      by_cases h4 : lowerStr (pyStrip text) ∈ formLabels <;>
      simp [h2, h3, h4]

/-- C6: a document that fails to open degrades to the error result, the
batch still produces exactly one output pair per `.pdf` input file, and
every `.pdf` file of the listing is represented by its own pair — one
document's failure never affects another's output. -/
theorem error_isolation (opener : String → Option Doc) (files : List String) (f : String)
    (hf : f ∈ files) (hpdf : isPdfName f = true) :
    (dropExt f ++ ".json", process_pdf_path (opener f) f) ∈ process_all_pdfs opener files
      ∧ (process_all_pdfs opener files).length = (files.filter isPdfName).length
      ∧ (opener f = none →
          process_pdf_path (opener f) f
            = { title := "Error processing " ++ f, outline := [] }) := by
  refine ⟨?_, ?_, ?_⟩
  · unfold process_all_pdfs
    exact List.mem_map.2 ⟨f, List.mem_filter.2 ⟨hf, hpdf⟩, rfl⟩
  · unfold process_all_pdfs
    rw [List.length_map]
  · intro h
    rw [h]
    rfl

/-- C6 witness: a one-file batch whose only document fails to open. -/
theorem error_isolation_witness :
    (dropExt "a.pdf" ++ ".json",
        process_pdf_path ((fun _ => (none : Option Doc)) "a.pdf") "a.pdf")
      ∈ process_all_pdfs (fun _ => (none : Option Doc)) ["a.pdf"]
      ∧ (process_all_pdfs (fun _ => (none : Option Doc)) ["a.pdf"]).length
        = ((["a.pdf"] : List String).filter isPdfName).length
      ∧ process_pdf_path ((fun _ => (none : Option Doc)) "a.pdf") "a.pdf"
        = { title := "Error processing " ++ "a.pdf", outline := [] } :=
  ⟨(error_isolation (fun _ => none) ["a.pdf"] "a.pdf" (by decide) (by decide)).1,
   (error_isolation (fun _ => none) ["a.pdf"] "a.pdf" (by decide) (by decide)).2.1,
   (error_isolation (fun _ => none) ["a.pdf"] "a.pdf" (by decide) (by decide)).2.2 rfl⟩

end PdfOutline
